import Mathlib

/-!
Verification development for the `rest_framework_swagger` documentation
generator.  The Python sources under `rest_framework_swagger/` are shallowly
embedded below: pure string manipulation is translated to Lean functions over
`String`/`List Char`, the stateful schema registry (`ModelGenerator`) becomes
explicit state passing, and the fallible pipeline (`DocumentationGenerator`
together with `ViewSetIntrospector`) returns `Except`.
-/

namespace RestSwagger

/-! ## Python string primitives

Faithful models of the Python `str` operations the source relies on. -/

/-- Characters stripped by Python `str.strip()` / `lstrip` / `rstrip`. -/
def isPySpace (c : Char) : Bool :=
  c = ' ' || c = '\t' || c = '\n' || c = '\r' || c = '\x0b' || c = '\x0c'

/-- Python `str.lstrip()`. -/
def pyLStrip (s : String) : String :=
  String.mk (s.toList.dropWhile isPySpace)

/-- Python `str.rstrip()`. -/
def pyRStrip (s : String) : String :=
  String.mk ((s.toList.reverse.dropWhile isPySpace).reverse)

/-- Python `str.strip()`. -/
def pyStrip (s : String) : String :=
  pyLStrip (pyRStrip s)

/-- Python `s[n:]` for a string. -/
def strDrop (s : String) (n : Nat) : String :=
  String.mk (s.toList.drop n)

/-- Python `s[:n]` for a string. -/
def strTake (s : String) (n : Nat) : String :=
  String.mk (s.toList.take n)

/-- Helper for `pySplit`: fuel-driven scan emitting a piece at each separator
occurrence (left-to-right, non-overlapping).  `acc` is the current piece
reversed; the fuel is an upper bound on the number of scan steps. -/
def splitOnAuxL (sep : List Char) : Nat → List Char → List Char → List (List Char)
  | 0, rest, acc => [acc.reverse ++ rest]
  | _ + 1, [], acc => [acc.reverse]
  | fuel + 1, c :: cs, acc =>
    if sep.isPrefixOf (c :: cs) then
      acc.reverse :: splitOnAuxL sep fuel ((c :: cs).drop sep.length) []
    else
      splitOnAuxL sep fuel cs (c :: acc)

/-- Python `s.split(sep)` for a non-empty separator. -/
def pySplit (s sep : String) : List String :=
  (splitOnAuxL sep.toList (s.length + 1) s.toList []).map String.mk

/-- Python `sep.join(xs)`. -/
def pyJoin (sep : String) (xs : List String) : String :=
  match xs with
  | [] => ""
  | x :: rest => rest.foldl (fun acc y => acc ++ sep ++ y) x

/-- Python `sub in s` / `s.find(sub) != -1` for a non-empty `sub`. -/
def containsStr (s sub : String) : Bool :=
  (pySplit s sub).length ≠ 1

/-- Python `s.replace(pat, repl)` for a non-empty `pat`. -/
def pyReplace (s pat repl : String) : String :=
  pyJoin repl (pySplit s pat)

/-- Helper for `pyExpandTabs`: walk characters tracking the current column. -/
def expandTabsAux : List Char → Nat → List Char
  | [], _ => []
  | c :: rest, col =>
    if c = '\t' then
      let n := 8 - col % 8
      List.replicate n ' ' ++ expandTabsAux rest (col + n)
    else if c = '\n' || c = '\r' then
      c :: expandTabsAux rest 0
    else
      c :: expandTabsAux rest (col + 1)

/-- Python `str.expandtabs()` with the default tab size of 8. -/
def pyExpandTabs (s : String) : String :=
  String.mk (expandTabsAux s.toList 0)

/-- Helper for `pySplitlines`; `acc` holds the current line reversed. -/
def splitlinesAux : List Char → List Char → List String
  | [], acc => if acc.isEmpty then [] else [String.mk acc.reverse]
  | '\r' :: '\n' :: rest, acc => String.mk acc.reverse :: splitlinesAux rest []
  | '\n' :: rest, acc => String.mk acc.reverse :: splitlinesAux rest []
  | '\r' :: rest, acc => String.mk acc.reverse :: splitlinesAux rest []
  | c :: rest, acc => splitlinesAux rest (c :: acc)

/-- Python `str.splitlines()` restricted to the line boundaries `\n`, `\r`,
`\r\n` (the only ones the embedded docstrings can contain). -/
def pySplitlines (s : String) : List String :=
  splitlinesAux s.toList []

/-- Python `str.lower()` (ASCII). -/
def pyLower (s : String) : String :=
  String.mk (s.toList.map Char.toLower)

/-- Python `str.upper()` (ASCII). -/
def pyUpper (s : String) : String :=
  String.mk (s.toList.map Char.toUpper)

/-- Python `s.find(c, start)`: index of the first occurrence of the character
`c` at position `start` or later, `none` when absent (Python returns `-1`). -/
def pyFindCharFrom (s : String) (c : Char) (start : Nat) : Option Nat :=
  let rec go : List Char → Nat → Option Nat
    | [], _ => none
    | x :: rest, i =>
      if i ≥ start && x = c then some i else go rest (i + 1)
  go s.toList 0

/-- Python `s.rfind(c)`: index of the last occurrence of `c`, `none` when
absent. -/
def pyRFindChar (s : String) (c : Char) : Option Nat :=
  let rec go : List Char → Nat → Option Nat → Option Nat
    | [], _, best => best
    | x :: rest, i, best =>
      go rest (i + 1) (if x = c then some i else best)
  go s.toList 0 none

/-- Python `str.isdigit()` (ASCII digits). -/
def pyIsDigit (s : String) : Bool :=
  s ≠ "" && s.toList.all Char.isDigit

/-- Python `int(s)` for a string of ASCII digits. -/
def pyToNat (s : String) : Nat :=
  s.toList.foldl (fun n c => n * 10 + (c.toNat - 48)) 0

/-! ## Django `trim_docstring`

`docparsers.py` calls `django.contrib.admindocs.utils.trim_docstring`; the
function below is that helper (PEP 257 docstring dedenting), translated from
the Django 1.5 sources the repository runs against. -/

/-- Django `trim_docstring`: dedent a docstring PEP-257 style. -/
def trimDocstring (docstring : String) : String :=
  if pyStrip docstring = "" then ""
  else
    let lines := pySplitlines (pyExpandTabs docstring)
    let contentIndents :=
      (lines.filter (fun l => pyLStrip l ≠ "")).map
        (fun l => l.length - (pyLStrip l).length)
    let indent := match contentIndents with
      | [] => 0
      | x :: xs => xs.foldl min x
    let trimmed := match lines with
      | [] => []
      | first :: rest => pyLStrip first :: rest.map (fun l => pyRStrip (strDrop l indent))
    pyStrip (pyJoin "\n" trimmed)

/-! ## Parameter dictionaries

The Python code passes parameters and schema properties around as dicts whose
final serialized form drops `None` values.  `Param` models such a dict: a key
bound to `none` models an absent key (or a key bound to Python `None`). -/

/-- The `items` sub-descriptor of an array property in
`ModelGenerator.generate_field`. -/
inductive ItemsSpec where
  | typeOf (t : String)
  | refOf (r : String)
deriving DecidableEq, Repr

/-- A parameter / property dictionary. -/
structure Param where
  paramType : Option String
  name : Option String
  type : Option String
  dataType : Option String
  description : Option String
  required : Option Bool
  readOnly : Option Bool
  defaultValue : Option String
  minimum : Option Nat
  maximum : Option Nat
  enum : Option (List String)
  items : Option ItemsSpec
deriving DecidableEq, Repr

/-- The empty dictionary. -/
def Param.empty : Param :=
  ⟨none, none, none, none, none, none, none, none, none, none, none, none⟩

/-! ## Docstring parser output

Both parser strategies return a dict; `RawDoc` is its shallow embedding.  A
field bound to `none` models both an absent key and a key bound to Python
`None` (downstream code treats the two alike: every read is guarded by
`key in doc and doc[key] is not None`). -/

/-- Parser output dictionary (`serializer` / `deserializer` still strings). -/
structure RawDoc where
  description : Option String
  summary : Option String
  query : Option (List Param)
  post : Option (List Param)
  serializer : Option String
  deserializer : Option String
deriving DecidableEq, Repr

/-- The all-`None` parser result. -/
def RawDoc.empty : RawDoc :=
  ⟨none, none, none, none, none, none⟩

/-! ## SimpleDocumentationParser (`docparsers.py` lines 5-50) -/

/-- The query-parameter dictionary built by
`SimpleDocumentationParser._extract_query_params` for one matching line. -/
def mkQueryParam (a b : String) : Param :=
  { Param.empty with
      paramType := some "query"
      name := some (pyStrip a)
      description := some (pyStrip b)
      dataType := some "" }

/-- `SimpleDocumentationParser._extract_query_params`: collect every line that
splits on `" -- "` into exactly two parts. -/
def extractQueryParams (doc : String) : List Param :=
  (pySplit doc "\n").filterMap fun line =>
    match pySplit line " -- " with
    | [a, b] => some (mkQueryParam a b)
    | _ => none

/-- The `for index, line in enumerate(split_lines)` search with `break`: the
index of the first element satisfying `p`. -/
def firstMatchIdx (p : String → Bool) : List String → Option Nat
  | [] => none
  | x :: rest => if p x then some 0 else (firstMatchIdx p rest).map (· + 1)

/-- `SimpleDocumentationParser.strip_params_from_docstring`: truncate the
trimmed docstring at the first line containing `"--"`. -/
def stripParamsFromDocstring (docstring : String) : String :=
  let splitLines := pySplit (trimDocstring docstring) "\n"
  let cutLines :=
    match firstMatchIdx (fun l => containsStr (pyStrip l) "--") splitLines with
    | some cutOff => splitLines.take cutOff
    | none => splitLines
  pyStrip (pyJoin "\n" cutLines)

/-- First element of `xs.split(sep)` (Python `s.split(sep)[0]`; the split list
is never empty). -/
def firstSplit (s sep : String) : String :=
  (pySplit s sep).headD ""

/-- `SimpleDocumentationParser.parse`.  The input is `Option String`: `none`
models a non-string / `None` docstring. -/
def simpleParse (doc : Option String) : RawDoc :=
  match doc with
  | none => RawDoc.empty
  | some d =>
    if d = "" then RawDoc.empty
    else
      let desc := stripParamsFromDocstring d
      { RawDoc.empty with
          description := some desc
          summary := some (firstSplit (firstSplit desc "\n") ".")
          query := some (extractQueryParams d) }

/-! ## RstLikeDocumentationParser (`docparsers.py` lines 53-192)

The parser is an indentation-sensitive state machine run over the lines of the
docstring.  `RstState` is the tuple of Python locals (`rtn`, `collect_desc`,
`ignore_indent`, `item_list`, `item_list_indent`, `item_list_item`,
`item_list_item_indent`, `last_indent`, `last_indents`); `rstStep` is the body
of the `for line in lines` loop.  Python `False` sentinels become `none`;
`item_list` is an alias into `rtn[name]`, modelled by `activeList` naming the
list it aliases, and `item_list_item` aliases the last element of the active
list. -/

/-- A list item under construction (`item_list_item` dict). -/
structure RstItem where
  name : String
  type : Option String
  description : List String
  required : Option Bool
  enum : Option (List String)
  minimum : Option Nat
  maximum : Option Nat
  paramType : Option String
  dataType : Option String
deriving DecidableEq, Repr

/-- The loop state of `RstLikeDocumentationParser.parse`. -/
structure RstState where
  description : List String
  serializer : Option String
  deserializer : Option String
  query : Option (List RstItem)
  post : Option (List RstItem)
  collectDesc : Bool
  ignoreIndent : Option Nat
  activeList : Option String
  itemListIndent : Option Nat
  itemListItemIndent : Option Nat
  lastIndent : Int
  lastIndents : List Int
deriving DecidableEq, Repr

/-- Initial loop state. -/
def RstState.init : RstState :=
  ⟨[], none, none, none, none, true, none, none, none, none, -1, []⟩

/-- The list currently aliased by `item_list`. -/
def RstState.getActive (st : RstState) : List RstItem :=
  match st.activeList with
  | some "query" => st.query.getD []
  | some "post" => st.post.getD []
  | _ => []

/-- Write back through the `item_list` alias. -/
def RstState.setActive (st : RstState) (l : List RstItem) : RstState :=
  match st.activeList with
  | some "query" => { st with query := some l }
  | some "post" => { st with post := some l }
  | _ => st

/-- Apply `f` to the last element of a list (mutation of `item_list_item`,
which is always the element appended last). -/
def modifyLast (f : α → α) : List α → List α
  | [] => []
  | [x] => [f x]
  | x :: rest => x :: modifyLast f rest

/-- Mutate the current `item_list_item` through the alias. -/
def RstState.modifyItem (st : RstState) (f : RstItem → RstItem) : RstState :=
  st.setActive (modifyLast f st.getActive)

/-- Description list of the current `item_list_item`. -/
def RstState.itemDesc (st : RstState) : List String :=
  ((st.getActive.getLast?).map RstItem.description).getD []

/-- `RstLikeDocumentationParser._parse_variable`. -/
def parseVariable (line : String) : Option String × Option String :=
  if line.length > 2 && line.toList.headD ' ' = ':' &&
      (pyFindCharFrom line ':' 2).isSome then
    let valIdx := (pyFindCharFrom line ':' 2).getD 0
    let name := pyStrip (pyLower (strDrop (strTake line valIdx) 1))
    let val := pyStrip (strDrop line (valIdx + 1))
    (some name, if val = "" then none else some val)
  else
    (none, none)

/-- Python truthiness of `line_name` (`None` and `""` are falsy). -/
def isTruthyName : Option String → Bool
  | some s => s ≠ ""
  | none => false

/-- The `while current_indent < last_indent: last_indent = last_indents.pop()`
loop; the stack is kept with its top at the head.  The popped value is
immediately overwritten by `current_indent`, so only the remaining stack is
observable. -/
def popIndents (cur : Int) : Nat → Int → List Int → Int × List Int
  | 0, last, stack => (last, stack)
  | fuel + 1, last, stack =>
    if cur < last then
      match stack with
      | [] => (last, [])
      | t :: rest => popIndents cur fuel t rest
    else
      (last, stack)

/-- The indent bookkeeping of a non-blank line: push/pop the indent stack,
close a list or item whose indent is not exceeded, record the new
`last_indent`. -/
def rstIndentBookkeep (st : RstState) (cur : Nat) : RstState :=
  let stack0 :=
    if (cur : Int) > st.lastIndent then st.lastIndent :: st.lastIndents
    else st.lastIndents
  let popped := popIndents (cur : Int) stack0.length st.lastIndent stack0
  let st := { st with lastIndents := popped.2 }
  let st :=
    if st.itemListIndent.getD 0 ≥ cur then
      { st with activeList := none, itemListIndent := none }
    else st
  let st :=
    if st.itemListItemIndent.getD 0 ≥ cur then
      { st with itemListItemIndent := none }
    else st
  { st with lastIndent := (cur : Int) }

/-- One iteration of the `for line in lines` loop of
`RstLikeDocumentationParser.parse`. -/
def rstStep (st : RstState) (line : String) : RstState :=
  if pyStrip line = "" then
    if st.itemListIndent.isSome && st.itemListItemIndent.isSome then
      st.modifyItem (fun it => { it with description := it.description ++ [pyStrip line] })
    else if st.collectDesc then
      { st with description := st.description ++ [pyStrip line] }
    else
      st
  else
    let cur : Nat := line.length - (pyLStrip line).length
    let st := rstIndentBookkeep st cur
    if (match st.ignoreIndent with | some n => decide (cur > n) | none => false) then
      st
    else
      let l := pyStrip line
      match st.itemListIndent with
      | none =>
        let nv := parseVariable l
        if isTruthyName nv.1 then
          let name := nv.1.getD ""
          if name = "deserializer" then { st with deserializer := nv.2 }
          else if name = "serializer" then { st with serializer := nv.2 }
          else if name = "query" then
            { st with query := some [], activeList := some "query",
                      itemListIndent := some cur }
          else if name = "post" then
            { st with post := some [], activeList := some "post",
                      itemListIndent := some cur }
          else
            { st with ignoreIndent := some cur, collectDesc := false }
        else if st.collectDesc then
          { st with description := st.description ++ [pyStrip l] }
        else
          st
      | some _ =>
        match st.itemListItemIndent with
        | none =>
          let nmty : String × Option String :=
            match pyFindCharFrom l ':' 1 with
            | some ti =>
              if ti > 0 then (pyStrip (strTake l ti), some (pyStrip (strDrop l (ti + 1))))
              else (l, none)
            | none => (l, none)
          let item : RstItem := ⟨nmty.1, nmty.2, [], none, none, none, none, none, none⟩
          let st := { st with itemListItemIndent := some cur }
          st.setActive (st.getActive ++ [item])
        | some _ =>
          let nv := parseVariable l
          if st.itemDesc.length = 0 && isTruthyName nv.1 then
            st.modifyItem fun it =>
              let it :=
                if nv.1 = some "required" then { it with required := some true } else it
              let it :=
                match nv.2 with
                | some v =>
                  if nv.1 = some "enum" then
                    { it with enum := some ((pySplit v ",").map pyStrip) }
                  else it
                | none => it
              let it :=
                match nv.2 with
                | some v =>
                  if (nv.1 = some "minimum" || nv.1 = some "maximum") && pyIsDigit v then
                    if nv.1 = some "minimum" then { it with minimum := some (pyToNat v) }
                    else { it with maximum := some (pyToNat v) }
                  else it
                | none => it
              it
          else
            st.modifyItem fun it => { it with description := it.description ++ [l] }

/-- Finish one list item: `_normalize` joins its description lines and
`_normalize_params` attaches `paramType`/`type`/`dataType`. -/
def rstFinishItem (it : RstItem) : Param :=
  let it := { it with paramType := some "form" }
  let it :=
    if it.type.getD "" = "" && it.dataType.getD "" = "" then
      { it with type := some "", dataType := some "" }
    else it
  { paramType := it.paramType
    name := some it.name
    type := it.type
    dataType := it.dataType
    description := some (pyStrip (pyJoin "\n" it.description))
    required := it.required
    readOnly := none
    defaultValue := none
    minimum := it.minimum
    maximum := it.maximum
    enum := it.enum
    items := none }

/-- Normalize a collected list (`_normalize` skips empty or absent lists;
`_normalize_params` only runs on truthy ones). -/
def rstNormalizeList : Option (List RstItem) → Option (List Param)
  | none => none
  | some [] => some []
  | some l => some (l.map rstFinishItem)

/-- `RstLikeDocumentationParser.parse`. -/
def rstParse (doc : Option String) : RawDoc :=
  match doc with
  | none => RawDoc.empty
  | some d =>
    if d = "" then RawDoc.empty
    else
      let fin := (pySplit d "\n").foldl rstStep RstState.init
      let desc := pyStrip (pyJoin "\n" fin.description)
      { description := some desc
        summary := some (firstSplit (firstSplit desc "\n") ".")
        query := rstNormalizeList fin.query
        post := rstNormalizeList fin.post
        serializer := fin.serializer
        deserializer := fin.deserializer }

/-! ## Association lists

Python dicts keyed by strings become association lists. -/

/-- Dict lookup. -/
def alookup : List (String × α) → String → Option α
  | [], _ => none
  | (k, v) :: rest, key => if k = key then some v else alookup rest key

/-- Dict assignment `d[k] = v` (replace in place, else append). -/
def assocSet : List (String × α) → String → α → List (String × α)
  | [], k, v => [(k, v)]
  | (k', v') :: rest, k, v =>
    if k' = k then (k, v) :: rest else (k', v') :: assocSet rest k v

/-- Python `dict(a, **b)`: entries of `b` override entries of `a`. -/
def assocMerge (a b : List (String × α)) : List (String × α) :=
  b.foldl (fun acc kv => assocSet acc kv.1 kv.2) a

/-! ## IntrospectorHelper.import_from_string (`introspectors.py` lines 31-71)

The import system is modelled by an environment mapping module paths to the
names they define.  A successful import returns the located class as a
`(module, class)` pair.  `importlib.import_module` raises `ImportError` for an
unknown module (caught by the source, yielding `None`) but `ValueError` for
the empty module path — that one is NOT caught by the `except ImportError`
clause and escapes, which the `Except` layer records as `.error`. -/

/-- Environment of importable modules: module path to defined names. -/
def ModuleEnv := List (String × List String)

/-- Model of `importlib.import_module` followed by the `hasattr` check. -/
def importLookup (env : List (String × List String)) (modulePath className : String) :
    Except String (Option (String × String)) :=
  if modulePath = "" then .error "ValueError: Empty module name"
  else
    match alookup env modulePath with
    | none => .ok none
    | some names => .ok (if className ∈ names then some (modulePath, className) else none)

/-- The `while name[0] == '.'` loop of `import_from_string`: strip one module
component per leading dot.  Returns the remaining module path and name, or
`none` where the source returns `None`. -/
def relativeLoop : List Char → String → Option (String × List Char)
  | '.' :: rest, modulePath =>
    match pyRFindChar modulePath '.' with
    | none =>
      if modulePath = "" then none
      else if rest.length ≤ 1 then none
      else relativeLoop rest ""
    | some idx =>
      if rest.length ≤ 1 then none
      else relativeLoop rest (strTake modulePath idx)
  | name, modulePath => some (modulePath, name)

/-- `IntrospectorHelper.import_from_string`.  `callbackModule` is
`callback.__module__` (`none` models a `None` callback or one without the
attribute); `.ok none` is the "no override" soft-failure result. -/
def importFromString (env : List (String × List String)) (name : String)
    (callbackModule : Option String) : Except String (Option (String × String)) :=
  match callbackModule with
  | none => .ok none
  | some cbMod =>
    if name = "" then .ok none
    else if ¬ containsStr name "." then
      importLookup env cbMod name
    else
      let resolved : Option String :=
        if name.toList.headD ' ' = '.' then
          match relativeLoop name.toList cbMod with
          | none => none
          | some (mp, rest) =>
            some (if mp ≠ "" then mp ++ "." ++ String.mk rest else String.mk rest)
        else some name
      match resolved with
      | none => .ok none
      | some fullname =>
        let parts := pySplit fullname "."
        importLookup env (pyJoin "." parts.dropLast) ((parts.getLast?).getD "")

/-! ## Serializer model

Per-serializer capability queries (`get_fields`, per-field attributes) are
external DRF collaborators; a serializer type is an index into an environment
of `SerializerSpec`s describing exactly what those queries answer. -/

/-- The shape of a declared field relevant to `ModelGenerator.generate_field`:
plain, `PrimaryKeyRelatedField`, or a nested serializer (`BaseSerializer`). -/
inductive FieldKind where
  | plain
  | pkRelated (many : Bool)
  | nested (ref : Nat) (many : Bool)
deriving DecidableEq, Repr

/-- A declared serializer field and the attributes the source reads off it. -/
structure FieldInfo where
  typeLabel : String
  required : Option Bool
  readOnly : Option Bool
  helpText : String
  default : Option String
  minLength : Option Nat
  maxLength : Option Nat
  choices : Option (List (String × String))
  kind : FieldKind
deriving DecidableEq, Repr

/-- A serializer type: its declared name and its `get_fields()` answer. -/
structure SerializerSpec where
  name : String
  fields : List (String × FieldInfo)
deriving DecidableEq, Repr

/-- Resolve a serializer reference in the environment. -/
def getSpec (env : List SerializerSpec) (i : Nat) : SerializerSpec :=
  env.getD i ⟨"", []⟩

/-- Modelled from the spec: `SerializerIntrospector.get_identifier` is imported
by `docgenerator.py` but `SerializerIntrospector` is not defined anywhere in
the sources; per the spec a SchemaDocument "id" is the type's declared name. -/
def getIdentifier (env : List SerializerSpec) (i : Nat) : String :=
  (getSpec env i).name

/-! ## ModelGenerator (`docgenerator.py` lines 193-273) -/

/-- A generated schema document. -/
structure SchemaDoc where
  id : String
  properties : List (String × Param)
deriving DecidableEq, Repr

/-- `ModelGenerator.generate_field`: the property dictionary plus the nested
serializer references passed to `model_generator.register` (empty when
`model_generator is None`, in which case the caller ignores the list). -/
def generateField (env : List SerializerSpec) (f : FieldInfo) : Param × List Nat :=
  let prop := { Param.empty with
                  type := some f.typeLabel
                  required := f.required
                  readOnly := f.readOnly
                  description := some f.helpText
                  defaultValue := f.default
                  minimum := f.minLength
                  maximum := f.maxLength }
  let prop :=
    if f.typeLabel = "multiple choice" then
      match f.choices with
      | some cs => { prop with type := some "string", enum := some (cs.map Prod.fst) }
      | none => prop
    else prop
  if f.typeLabel = "field" then
    match f.kind with
    | .pkRelated many =>
      if many then ({ prop with type := some "array", items := some (.typeOf "integer") }, [])
      else ({ prop with type := some "integer" }, [])
    | .nested r many =>
      let ft := getIdentifier env r
      if many then ({ prop with type := some "array", items := some (.refOf ft) }, [r])
      else ({ prop with type := some ft }, [r])
    | .plain => (prop, [])
  else (prop, [])

/-- The mutable state of a `ModelGenerator` instance. -/
structure ModelGenerator where
  serializers : List (String × Nat)
  models : List (String × SchemaDoc)
deriving DecidableEq, Repr

/-- A fresh `ModelGenerator()`. -/
def ModelGenerator.empty : ModelGenerator := ⟨[], []⟩

/-- `ModelGenerator.register`. -/
def register (env : List SerializerSpec) (st : ModelGenerator) (s : Nat) : ModelGenerator :=
  let id := getIdentifier env s
  if (alookup st.models id).isSome then st
  else { st with serializers := assocSet st.serializers id s }

/-- The field loop of `ModelGenerator._generate_model`: convert each field and
register any nested serializer discovered on the way. -/
def generateModelFields (env : List SerializerSpec) :
    List (String × FieldInfo) → ModelGenerator → List (String × Param) × ModelGenerator
  | [], st => ([], st)
  | (n, f) :: rest, st =>
    let pr := generateField env f
    let st := pr.2.foldl (register env) st
    let tail := generateModelFields env rest st
    ((n, pr.1) :: tail.1, tail.2)

/-- The `while len(self.serializers) > 0` worklist of `ModelGenerator.generate`
with explicit fuel (`popitem` pops the head entry here; the Python dict pops an
unspecified one). -/
def genLoop (env : List SerializerSpec) : Nat → ModelGenerator → ModelGenerator
  | 0, st => st
  | fuel + 1, st =>
    match st.serializers with
    | [] => st
    | (id, s) :: rest =>
      if (alookup st.models id).isSome then
        genLoop env fuel { st with serializers := rest }
      else
        let pr := generateModelFields env (getSpec env s).fields { st with serializers := rest }
        genLoop env fuel { pr.2 with models := pr.2.models ++ [(id, ⟨id, pr.1⟩)] }

/-- `ModelGenerator.generate`. -/
def ModelGenerator.generate (env : List SerializerSpec) (fuel : Nat) (st : ModelGenerator) :
    List (String × SchemaDoc) :=
  (genLoop env fuel st).models

/-! ## Introspectors (`introspectors.py` lines 74-337)

A parsed-and-resolved documentation dict: the overrides have already gone
through `resolve_documentation_information`, so `serializer`/`deserializer`
hold resolved type references of type `α` (a `none` models an absent key, a
`None` value, or an override string that failed to resolve).  The `responses`
field is modelled from the spec: `docgenerator.py` calls
`introspector.get_response_messages()`, which is defined nowhere in the
sources; per the spec a ParsedDoc carries a `response_notes` mapping from
status-code string to message. -/
structure DocInfo (α : Type) where
  description : Option String
  summary : Option String
  query : Option (List Param)
  post : Option (List Param)
  serializer : Option α
  deserializer : Option α
  responses : List (String × String)
deriving DecidableEq, Repr

/-- The all-absent documentation dict (docstring missing or unparseable). -/
def DocInfo.empty : DocInfo α :=
  ⟨none, none, none, none, none, none, []⟩

/-- `BaseViewIntrospector.get_serializer_class`: ask the handler for its
default (`none` models a callback without the capability). -/
def viewGetSerializerClass (defaultSer : Option α) : Option α :=
  defaultSer

/-- `BaseViewIntrospector.get_deserializer_class`. -/
def viewGetDeserializerClass (classDoc : DocInfo α) (defaultSer : Option α) : Option α :=
  match classDoc.deserializer with
  | some d => some d
  | none => viewGetSerializerClass defaultSer

/-- `BaseMethodIntrospector.get_serializer_class`. -/
def methodGetSerializerClass (methodDoc : DocInfo α) (defaultSer : Option α) : Option α :=
  match methodDoc.serializer with
  | some s => some s
  | none => viewGetSerializerClass defaultSer

/-- `BaseMethodIntrospector.get_deserializer_class`. -/
def methodGetDeserializerClass (methodDoc classDoc : DocInfo α) (defaultSer : Option α) :
    Option α :=
  match methodDoc.deserializer with
  | some d => some d
  | none =>
    match methodDoc.serializer with
    | some s => some s
    | none => viewGetDeserializerClass classDoc defaultSer

/-- Handler data consumed by the introspectors: the parsed class docstring,
the parsed method docstrings keyed by attribute name, the handler's default
serializer capability, its display name, and (for plain `APIView`s) its
`allowed_methods` answer. -/
structure ViewData where
  classDoc : DocInfo Nat
  methodDocs : List (String × DocInfo Nat)
  defaultSerializer : Option Nat
  viewName : String
  allowedMethods : List String
deriving DecidableEq, Repr

/-- The two endpoint handler kinds `_resolve_api_introspector` dispatches on
(`issubclass(callback, viewsets.ViewSetMixin)`). -/
inductive ApiCallback where
  | apiView (vd : ViewData)
  | viewSet (vd : ViewData)
deriving DecidableEq, Repr

/-- One entry of the `apis` list fed to `DocumentationGenerator.generate`.
`patternActions` models the `actions` closure binding of
`pattern.callback` (`none` when the closure is missing or malformed). -/
structure Api where
  path : String
  callback : ApiCallback
  patternActions : Option (List (String × String))
deriving DecidableEq, Repr

/-- The handler data of an endpoint. -/
def Api.viewData (api : Api) : ViewData :=
  match api.callback with
  | .apiView vd => vd
  | .viewSet vd => vd

/-- A method introspector (`BaseMethodIntrospector` state after `__init__`). -/
structure MethodIntrospector where
  httpMethod : String
  doc : DocInfo Nat
  classDoc : DocInfo Nat
  path : String
  defaultSerializer : Option Nat
  viewName : String
deriving DecidableEq, Repr

/-- `BaseMethodIntrospector.retrieve_docstring` composed with the parser: the
docstring of the handler attribute named by the lowercased method, or the
all-absent dict when the attribute is missing. -/
def lookupMethodDoc (vd : ViewData) (attr : String) : DocInfo Nat :=
  (alookup vd.methodDocs attr).getD DocInfo.empty

/-- `APIViewIntrospector.__iter__`: one method introspector per allowed
method. -/
def apiViewIntrospect (path : String) (vd : ViewData) : List MethodIntrospector :=
  vd.allowedMethods.map fun m =>
    ⟨m, lookupMethodDoc vd (pyLower m), vd.classDoc, path, vd.defaultSerializer, vd.viewName⟩

/-- `ViewSetIntrospector._resolve_methods` followed by `__iter__`: a missing
`actions` closure raises `RuntimeError`; otherwise one introspector per
mapping entry, with the documentation attribute named by the action and the
HTTP method the uppercased mapping key. -/
def viewSetIntrospect (path : String) (vd : ViewData)
    (patternActions : Option (List (String × String))) :
    Except String (List MethodIntrospector) :=
  match patternActions with
  | none => .error "Unable to use callback invalid closure/function specified."
  | some actions =>
    .ok (actions.map fun ha =>
      ⟨pyUpper ha.1, lookupMethodDoc vd (pyLower ha.2), vd.classDoc, path,
       vd.defaultSerializer, vd.viewName⟩)

/-- The method introspectors of an endpoint. -/
def apiIntrospect (api : Api) : Except String (List MethodIntrospector) :=
  match api.callback with
  | .apiView vd => .ok (apiViewIntrospect api.path vd)
  | .viewSet vd => viewSetIntrospect api.path vd api.patternActions

/-- Serializer resolution of a method introspector. -/
def miGetSerializer (mi : MethodIntrospector) : Option Nat :=
  methodGetSerializerClass mi.doc mi.defaultSerializer

/-- Deserializer resolution of a method introspector. -/
def miGetDeserializer (mi : MethodIntrospector) : Option Nat :=
  methodGetDeserializerClass mi.doc mi.classDoc mi.defaultSerializer

/-- `BaseMethodIntrospector.get_summary`. -/
def miGetSummary (mi : MethodIntrospector) : Option String :=
  match mi.doc.summary with
  | some s => some s
  | none => mi.classDoc.summary

/-- `BaseMethodIntrospector.get_notes`. -/
def miGetNotes (mi : MethodIntrospector) : String :=
  let d1 := match mi.classDoc.description with
    | some d => d ++ "\n"
    | none => ""
  let d2 := match mi.doc.description with
    | some d => d
    | none => ""
  pyReplace (pyStrip (d1 ++ d2)) "\n\n" "<br/>"

/-- `BaseMethodIntrospector.get_nickname` (`get_view_name` is the external DRF
display-name query; its answer is `viewName`). -/
def miGetNickname (mi : MethodIntrospector) : String :=
  pyReplace mi.viewName " " "_"

/-! ## DocumentationGenerator (`docgenerator.py` lines 17-190) -/

/-- `SimpleFormatter.format` from `docformatters.py` (the module-level
`formatter` the generator applies). -/
def formatter : Option String → Option String
  | none => none
  | some s => if s = "" then none else some (pyReplace s "\n" "<br/>")

/-- Helper for `findPathParams`: scan for `/{name}` occurrences like
`re.findall('/{([^}]*)}', path)`, resuming after each match and advancing one
character on a failed match.  The fuel bounds the scan steps. -/
def findPathParamsAux : Nat → List Char → List String
  | 0, _ => []
  | fuel + 1, cs =>
    match cs with
    | '/' :: '{' :: rest =>
      let inner := rest.takeWhile (fun c => c ≠ '}')
      match rest.drop inner.length with
      | '}' :: after => String.mk inner :: findPathParamsAux fuel after
      | _ => findPathParamsAux fuel ('{' :: rest)
    | _ :: rest => findPathParamsAux fuel rest
    | [] => []

/-- The URL placeholder names of a path. -/
def findPathParams (path : String) : List String :=
  findPathParamsAux (path.length + 1) path.toList

/-- `DocumentationGenerator._generate_method_url_parameters`. -/
def genMethodUrlParameters (path : String) : List Param :=
  (findPathParams path).map fun p =>
    { Param.empty with
        paramType := some "path", name := some p,
        type := some "string", required := some true }

/-- `DocumentationGenerator._generate_method_query_parameters`. -/
def genMethodQueryParameters (mi : MethodIntrospector) : List Param :=
  mi.doc.query.getD [] ++ mi.classDoc.query.getD []

/-- `DocumentationGenerator._generate_method_form_parameters` (calls
`generate_field` with `model_generator=None`, so nested registrations are
dropped). -/
def genMethodFormParameters (env : List SerializerSpec) (mi : MethodIntrospector) :
    List Param :=
  match miGetDeserializer mi with
  | none => []
  | some s =>
    (getSpec env s).fields.filterMap fun nf =>
      if nf.2.readOnly.getD false then none
      else some { (generateField env nf.2).1 with paramType := some "form", name := some nf.1 }

/-- `DocumentationGenerator._generate_method_body_parameters`. -/
def genMethodBodyParameters (env : List SerializerSpec) (mi : MethodIntrospector) :
    List Param :=
  match miGetDeserializer mi with
  | none => []
  | some s =>
    [{ Param.empty with
         name := some (getSpec env s).name
         dataType := some (getSpec env s).name
         paramType := some "body" }]

/-- `DocumentationGenerator._generate_method_parameters`. -/
def genMethodParameters (env : List SerializerSpec) (mi : MethodIntrospector) : List Param :=
  let params := genMethodUrlParameters mi.path ++ genMethodQueryParameters mi
  if mi.httpMethod = "GET" || mi.httpMethod = "DELETE" then params
  else
    let formParams := genMethodFormParameters env mi
    if formParams.isEmpty then params ++ formParams ++ genMethodBodyParameters env mi
    else params ++ formParams

/-- An operation dictionary. -/
structure Operation where
  httpMethod : String
  summary : Option String
  nickname : String
  notes : Option String
  responseClass : Option String
  parameters : List Param
  responseMessages : Option (List (String × Option String))
deriving DecidableEq, Repr

/-- `DocumentationGenerator._generate_method_operation`.  `responseClass` goes
through the spec-modelled `getIdentifier` (`None` stays `None`);
`responseMessages` renders the spec-modelled `get_response_messages` answer. -/
def genMethodOperation (env : List SerializerSpec) (mi : MethodIntrospector) : Operation :=
  let responses := mi.doc.responses
  { httpMethod := mi.httpMethod
    summary := miGetSummary mi
    nickname := miGetNickname mi
    notes := formatter (some (miGetNotes mi))
    responseClass := (miGetSerializer mi).map (getIdentifier env)
    parameters := genMethodParameters env mi
    responseMessages :=
      if responses.length > 0 then
        some (responses.map fun cd => (cd.1, formatter (some cd.2)))
      else none }

/-- One iteration of the `for method_introspector in introspector` loop of
`DocumentationGenerator._retrieve_api_info`: skip OPTIONS, emit the operation,
register serializer and deserializer. -/
def retrieveStep (env : List SerializerSpec) (acc : List Operation × ModelGenerator)
    (mi : MethodIntrospector) : List Operation × ModelGenerator :=
  if mi.httpMethod = "OPTIONS" then acc
  else
    let ops := acc.1 ++ [genMethodOperation env mi]
    let mg := match miGetSerializer mi with
      | some s => register env acc.2 s
      | none => acc.2
    let mg := match miGetDeserializer mi with
      | some s => register env mg s
      | none => mg
    (ops, mg)

/-- The whole loop of `_retrieve_api_info`. -/
def retrieveLoop (env : List SerializerSpec) (mis : List MethodIntrospector) :
    List Operation × ModelGenerator :=
  mis.foldl (retrieveStep env) ([], ModelGenerator.empty)

/-- Result dictionary of `_retrieve_api_info`. -/
structure ApiInfo where
  description : Option String
  operations : List Operation
  models : List (String × SchemaDoc)
deriving DecidableEq, Repr

/-- `DocumentationGenerator._retrieve_api_info`. -/
def retrieveApiInfo (env : List SerializerSpec) (fuel : Nat) (api : Api) :
    Except String ApiInfo :=
  match apiIntrospect api with
  | .error e => .error e
  | .ok mis =>
    let opsMg := retrieveLoop env mis
    .ok ⟨formatter api.viewData.classDoc.description, opsMg.1,
         ModelGenerator.generate env fuel opsMg.2⟩

/-- One entry of the final `apis` list. -/
structure ApiDoc where
  description : Option String
  path : String
  operations : List Operation
deriving DecidableEq, Repr

/-- The final document. -/
structure Document where
  apis : List ApiDoc
  models : List (String × SchemaDoc)
deriving DecidableEq, Repr

/-- The `for api in apis` loop of `DocumentationGenerator.generate`, with the
accumulated `apis_docs` and `models_docs`. -/
def generateAux (env : List SerializerSpec) (fuel : Nat) :
    List Api → List ApiDoc → List (String × SchemaDoc) → Except String Document
  | [], docs, models => .ok ⟨docs, models⟩
  | api :: rest, docs, models =>
    match retrieveApiInfo env fuel api with
    | .error e => .error e
    | .ok info =>
      let docs := docs ++ [⟨formatter info.description, api.path, info.operations⟩]
      let models := if info.models.length > 0 then assocMerge models info.models else models
      generateAux env fuel rest docs models

/-- `DocumentationGenerator.generate` (an uncaught `RuntimeError` from a
viewset endpoint surfaces as `.error`). -/
def generate (env : List SerializerSpec) (fuel : Nat) (apis : List Api) :
    Except String Document :=
  generateAux env fuel apis [] []

/-! ## Claim-side definitions

These follow the wording of the specification (not the source) and exist only
to be compared with the source-derived definitions above. -/

/-- Claim-side deserializer resolution: method-level `deserializer`/`serializer`
override, then the same pair at class level, then the handler default. -/
def specResolveDeserializer (methodDoc classDoc : DocInfo α) (defaultSer : Option α) :
    Option α :=
  match methodDoc.deserializer with
  | some d => some d
  | none =>
    match methodDoc.serializer with
    | some s => some s
    | none =>
      match classDoc.deserializer with
      | some d => some d
      | none =>
        match classDoc.serializer with
        | some s => some s
        | none => defaultSer

/-- Claim-side parameter layout: form parameters come from the explicit `post`
override list when present, else are derived from the deserializer; when no
form parameters exist, the synthetic body parameter named after the
deserializer is appended. -/
def specGenMethodParameters (env : List SerializerSpec) (mi : MethodIntrospector) :
    List Param :=
  let params := genMethodUrlParameters mi.path ++ genMethodQueryParameters mi
  if mi.httpMethod = "GET" || mi.httpMethod = "DELETE" then params
  else
    let formParams := match mi.doc.post with
      | some l => l
      | none => genMethodFormParameters env mi
    if formParams.isEmpty then params ++ genMethodBodyParameters env mi
    else params ++ formParams

/-- Claim-side description of the Simple strategy: the text with everything
from the first parameter line onward removed, a parameter line being one that
matches the loose pattern (splits on `" -- "` into exactly two parts). -/
def specC8Description (doc : String) : String :=
  let ls := pySplit doc "\n"
  match firstMatchIdx (fun l => (pySplit l " -- ").length == 2) ls with
  | some i => pyJoin "\n" (ls.take i)
  | none => doc

/-! ## Concrete instances used by witnesses and counterexamples -/

/-- A writable string field with a max length. -/
def sampleFieldInfo : FieldInfo :=
  ⟨"string", some true, none, "", none, none, some 100, none, .plain⟩

/-- A one-field serializer environment. -/
def sampleEnv : List SerializerSpec :=
  [⟨"CommentSerializer", [("email", sampleFieldInfo)]⟩]

/-- An explicit `post` override entry. -/
def samplePostParam : Param :=
  { Param.empty with paramType := some "form", name := some "override", type := some "string" }

/-- A POST method introspector with a `post` override and deserializer 0. -/
def sampleMi : MethodIntrospector :=
  ⟨"POST", { DocInfo.empty with post := some [samplePostParam], deserializer := some 0 },
   DocInfo.empty, "/users/{pk}/", none, "My View"⟩

/-- A plain handler exposing GET and OPTIONS. -/
def sampleViewData : ViewData :=
  ⟨DocInfo.empty, [], none, "My View", ["GET", "OPTIONS"]⟩

/-- An `APIView` endpoint over `sampleViewData`. -/
def c2wApi : Api :=
  ⟨"/x/", .apiView sampleViewData, none⟩

/-- The introspection result of `c2wApi`. -/
def c2wInfo : ApiInfo :=
  (retrieveApiInfo [] 0 c2wApi).toOption.getD ⟨none, [], []⟩

/-- A viewset endpoint whose route callback lacks the `actions` closure. -/
def c6wApi : Api :=
  ⟨"/y/", .viewSet sampleViewData, none⟩

/-- A cyclic serializer environment: A embeds B embeds A. -/
def cyclicEnv : List SerializerSpec :=
  [⟨"A", [("b", ⟨"field", none, none, "", none, none, none, none, .nested 1 false⟩)]⟩,
   ⟨"B", [("a", ⟨"field", none, none, "", none, none, none, none, .nested 0 false⟩)]⟩]

/-- The registry after registering serializer A twice. -/
def c1wState : ModelGenerator :=
  register cyclicEnv (register cyclicEnv ModelGenerator.empty 0) 0

/-- A freshly opened list item with no description yet. -/
def c9wItem : RstItem :=
  ⟨"size", none, [], none, none, none, none, none, none⟩

/-- A parser state inside a `query` list item opened at indent 4 under a list
opened at indent 2. -/
def c9wState : RstState :=
  ⟨[], none, none, some [c9wItem], none, true, none, some "query", some 2, some 4, 4, [2, -1]⟩

/-- A method introspector whose docstring parsed to an empty summary while the
class summary is non-empty. -/
def c10wMi : MethodIntrospector :=
  ⟨"GET", { DocInfo.empty with summary := some "" },
   { DocInfo.empty with summary := some "Class summary" }, "/x/", none, "V"⟩

/-- An empty method-level parsed doc (over string overrides). -/
def c4wMethodDoc : DocInfo String := DocInfo.empty

/-- A class-level parsed doc carrying only a `serializer` override. -/
def c4wClassDoc : DocInfo String :=
  { DocInfo.empty with serializer := some "SerializerS" }

end RestSwagger

/-- Sanity check: the unit test input of `SimpleDocumentationParserTest`. -/
example :
    RestSwagger.stripParamsFromDocstring
      "\n  My comments are here\n\n  param -- my param\n  " =
      "My comments are here" := by
  decide

/- Sanity check: the structured docstring of `RstLikeDocumentationParserTest`
(the `:response:` section is not implemented by the source parser and lands in
ignore mode). -/
set_option maxRecDepth 16384 in
example :
    RestSwagger.rstParse (some
      ("\n            :Query:" ++
       "\n              size" ++
       "\n                  The size of the fox (in meters)" ++
       "\n              weight : float" ++
       "\n                  :required:" ++
       "\n                  The weight of the fox (in stones)" ++
       "\n              age : int" ++
       "\n                  The age of the fox (in years)" ++
       "\n" ++
       "\n                  This may also be None" ++
       "\n" ++
       "\n            :Post:" ++
       "\n              size" ++
       "\n                  The size of the fox (in meters)" ++
       "\n" ++
       "\n            :serializer: .serializer" ++
       "\n            :deserializer: .deserializer" ++
       "\n" ++
       "\n            :response:" ++
       "\n                200" ++
       "\n                    Ok" ++
       "\n                404: Not found" ++
       "\n            :unknown:" ++
       "\n                test" ++
       "\n                    test" ++
       "\n            ")) =
      { description := some ""
        summary := some ""
        query := some
          [{ RestSwagger.Param.empty with
               paramType := some "form", name := some "size", type := some "",
               dataType := some "",
               description := some "The size of the fox (in meters)" },
           { RestSwagger.Param.empty with
               paramType := some "form", name := some "weight", type := some "float",
               description := some "The weight of the fox (in stones)",
               required := some true },
           { RestSwagger.Param.empty with
               paramType := some "form", name := some "age", type := some "int",
               description := some "The age of the fox (in years)\n\nThis may also be None" }]
        post := some
          [{ RestSwagger.Param.empty with
               paramType := some "form", name := some "size", type := some "",
               dataType := some "",
               description := some "The size of the fox (in meters)" }]
        serializer := some ".serializer"
        deserializer := some ".deserializer" } := by
  decide

example :
    RestSwagger.simpleParse
      (some "Creates a new user.\nReturns: token\n\nemail -- e-mail address") =
      { RestSwagger.RawDoc.empty with
          description := some "Creates a new user.\nReturns: token"
          summary := some "Creates a new user"
          query := some [{ RestSwagger.Param.empty with
                             paramType := some "query"
                             name := some "email"
                             description := some "e-mail address"
                             dataType := some "" }] } := by
  decide

namespace RestSwagger

/-! ## Claim theorems -/

/-- C3: the Simple docstring-parser strategy applied to the input
"Creates a new user.\nReturns: token\n\nemail -- e-mail address" returns
description "Creates a new user.\nReturns: token", summary
"Creates a new user", and exactly one query parameter with name "email" and
description "e-mail address". -/
theorem c3_simple_parser_example :
    simpleParse (some "Creates a new user.\nReturns: token\n\nemail -- e-mail address") =
      { RawDoc.empty with
          description := some "Creates a new user.\nReturns: token"
          summary := some "Creates a new user"
          query := some [mkQueryParam "email" "e-mail address"] } := by
  decide

/-- C4 counterexample: with no method-level overrides, a class-level
`serializer` override and a handler default, the code resolves the
deserializer to the handler default, not to the class-level serializer
override that the claimed priority order mandates. -/
theorem c4_counterexample :
    methodGetDeserializerClass c4wMethodDoc c4wClassDoc (some "DefaultD") = some "DefaultD" ∧
    specResolveDeserializer c4wMethodDoc c4wClassDoc (some "DefaultD") = some "SerializerS" ∧
    methodGetDeserializerClass c4wMethodDoc c4wClassDoc (some "DefaultD") ≠
      specResolveDeserializer c4wMethodDoc c4wClassDoc (some "DefaultD") := by
  decide

/-- C4 (amended): the deserializer resolves as method-level `deserializer`
override, else method-level `serializer` override, else class-level
`deserializer` override, else the handler default; the class-level
`serializer` override is never consulted; and the serializer resolves
independently as the method-level `serializer` override, else the handler
default. -/
theorem c4_resolution_order (m c : DocInfo α) (defS : Option α) :
    (∀ d, m.deserializer = some d → methodGetDeserializerClass m c defS = some d)
  ∧ (m.deserializer = none → ∀ s, m.serializer = some s →
       methodGetDeserializerClass m c defS = some s)
  ∧ (m.deserializer = none → m.serializer = none → ∀ d, c.deserializer = some d →
       methodGetDeserializerClass m c defS = some d)
  ∧ (m.deserializer = none → m.serializer = none → c.deserializer = none →
       methodGetDeserializerClass m c defS = defS)
  ∧ (∀ s1 s2, methodGetDeserializerClass m { c with serializer := s1 } defS =
       methodGetDeserializerClass m { c with serializer := s2 } defS)
  ∧ (∀ s, m.serializer = some s → methodGetSerializerClass m defS = some s)
  ∧ (m.serializer = none → methodGetSerializerClass m defS = defS) := by
  refine ⟨?_, ?_, ?_, ?_, ?_, ?_, ?_⟩
  · intro d hd
    simp [methodGetDeserializerClass, hd]
  · intro hd s hs
    simp [methodGetDeserializerClass, hd, hs]
  · intro hd hs d hcd
    simp [methodGetDeserializerClass, viewGetDeserializerClass, hd, hs, hcd]
  · intro hd hs hcd
    simp [methodGetDeserializerClass, viewGetDeserializerClass,
          viewGetSerializerClass, hd, hs, hcd]
  · intro s1 s2
    simp [methodGetDeserializerClass, viewGetDeserializerClass, viewGetSerializerClass]
  · intro s hs
    simp [methodGetSerializerClass, hs]
  · intro hs
    simp [methodGetSerializerClass, viewGetSerializerClass, hs]

/-- C4 witness: the amended resolution order applied at the concrete
counterexample input. -/
theorem c4_resolution_order_witness :
    methodGetDeserializerClass c4wMethodDoc c4wClassDoc (some "DefaultD") = some "DefaultD" ∧
    methodGetSerializerClass c4wMethodDoc (some "DefaultD") = some "DefaultD" :=
  ⟨(c4_resolution_order c4wMethodDoc c4wClassDoc (some "DefaultD")).2.2.2.1 rfl rfl rfl,
   (c4_resolution_order c4wMethodDoc c4wClassDoc (some "DefaultD")).2.2.2.2.2.2 rfl⟩

/-- C5: every enumerated soft failure mode of `import_from_string` (bad module
path, class name absent from the module, too many leading dots, callback
without a module, empty name) resolves to the no-override result; but when the
leading dots of a relative path exactly exhaust the callback's module path and
the remainder is a bare class name, `importlib.import_module("")` raises
`ValueError`, which the `except ImportError` clause does not catch, so the
exception escapes and aborts generation. -/
theorem c5_import_failure_modes :
    importFromString [("app.views", ["X"])] "bad.module.Cls" (some "app.views") = .ok none
  ∧ importFromString [("app.views", ["X"])] "Missing" (some "app.views") = .ok none
  ∧ importFromString [("app.views", ["X"])] "...app.views.X" (some "app.views") = .ok none
  ∧ importFromString [("app.views", ["X"])] "X" none = .ok none
  ∧ importFromString [("app.views", ["X"])] "" (some "app.views") = .ok none
  ∧ importFromString [("views", ["Foo"])] ".Foo" (some "views") =
      .error "ValueError: Empty module name" :=
  ⟨rfl, rfl, rfl, rfl, rfl, rfl⟩

/-- C7 counterexample: with an explicit `post` override list and a resolvable
deserializer, the operation-parameter generator derives the form parameters
from the deserializer fields and ignores the override list that the claim
mandates. -/
theorem c7_counterexample :
    genMethodParameters sampleEnv sampleMi ≠ specGenMethodParameters sampleEnv sampleMi ∧
    specGenMethodParameters sampleEnv sampleMi =
      genMethodUrlParameters sampleMi.path ++ genMethodQueryParameters sampleMi ++
        [samplePostParam] ∧
    genMethodParameters sampleEnv sampleMi =
      genMethodUrlParameters sampleMi.path ++ genMethodQueryParameters sampleMi ++
        genMethodFormParameters sampleEnv sampleMi := by
  decide

/-- C8 counterexample: on "hello\nfoo--bar\nx -- y" the code truncates the
description at the first line containing "--" at all (yielding "hello"),
while the claim's parameter-line pattern (split on " -- " into two parts)
would keep "foo--bar" and truncate only at "x -- y". -/
theorem c8_counterexample :
    (simpleParse (some "hello\nfoo--bar\nx -- y")).description = some "hello" ∧
    specC8Description "hello\nfoo--bar\nx -- y" = "hello\nfoo--bar" ∧
    (simpleParse (some "hello\nfoo--bar\nx -- y")).description ≠
      some (specC8Description "hello\nfoo--bar\nx -- y") := by
  decide

end RestSwagger

namespace RestSwagger

/-- C7 (amended): operation parameters are path parameters (each of paramType
path, type string, required, named by the /{name} placeholders), then the
method-level and class-level query lists; GET and DELETE stop there; other
methods append the form parameters derived from the deserializer fields
(independent of any `post` override), or, when that list is empty, the
synthetic body parameter of the deserializer; no deserializer means no form
and no body parameters. -/
theorem c7_parameter_layout (env : List SerializerSpec) (mi : MethodIntrospector) :
    (mi.httpMethod = "GET" ∨ mi.httpMethod = "DELETE" →
        genMethodParameters env mi =
          genMethodUrlParameters mi.path ++ genMethodQueryParameters mi)
  ∧ (∀ q ∈ genMethodUrlParameters mi.path,
        q.paramType = some "path" ∧ q.type = some "string" ∧ q.required = some true)
  ∧ ((genMethodUrlParameters mi.path).map Param.name = (findPathParams mi.path).map some)
  ∧ (genMethodQueryParameters mi = mi.doc.query.getD [] ++ mi.classDoc.query.getD [])
  ∧ (mi.httpMethod ≠ "GET" → mi.httpMethod ≠ "DELETE" →
        (genMethodFormParameters env mi ≠ [] →
            genMethodParameters env mi =
              genMethodUrlParameters mi.path ++ genMethodQueryParameters mi ++
                genMethodFormParameters env mi)
      ∧ (genMethodFormParameters env mi = [] →
            genMethodParameters env mi =
              genMethodUrlParameters mi.path ++ genMethodQueryParameters mi ++
                genMethodBodyParameters env mi))
  ∧ (∀ p, genMethodParameters env
        { mi with doc := { mi.doc with post := p } } = genMethodParameters env mi)
  ∧ (miGetDeserializer mi = none →
        genMethodFormParameters env mi = [] ∧ genMethodBodyParameters env mi = [])
  ∧ (∀ s, miGetDeserializer mi = some s →
        genMethodBodyParameters env mi =
          [{ Param.empty with
               name := some (getSpec env s).name
               dataType := some (getSpec env s).name
               paramType := some "body" }]) := by
  refine ⟨?_, ?_, ?_, rfl, ?_, ?_, ?_, ?_⟩
  · rintro (h | h) <;> simp [genMethodParameters, h]
  · intro q hq
    simp only [genMethodUrlParameters, List.mem_map] at hq
    obtain ⟨p, -, rfl⟩ := hq
    exact ⟨rfl, rfl, rfl⟩
  · simp [genMethodUrlParameters, List.map_map]
  · intro h1 h2
    have hcond : (mi.httpMethod = "GET" || mi.httpMethod = "DELETE") = false := by
      simp [h1, h2]
    constructor
    · intro hne
      simp [genMethodParameters, hcond, List.isEmpty_iff, hne]
    · intro he
      simp [genMethodParameters, hcond, he]
  · intro p
    simp [genMethodParameters, genMethodQueryParameters, genMethodFormParameters,
          genMethodBodyParameters, miGetDeserializer, methodGetDeserializerClass,
          viewGetDeserializerClass, viewGetSerializerClass]
  · intro h
    simp [genMethodFormParameters, genMethodBodyParameters, h]
  · intro s h
    simp [genMethodBodyParameters, h]

/-- C7 witness: the amended layout applied at the concrete counterexample
introspector (POST with a deserializer whose derived form list is non-empty). -/
theorem c7_parameter_layout_witness :
    genMethodParameters sampleEnv sampleMi =
      genMethodUrlParameters sampleMi.path ++ genMethodQueryParameters sampleMi ++
        genMethodFormParameters sampleEnv sampleMi :=
  ((c7_parameter_layout sampleEnv sampleMi).2.2.2.2.1 (by decide) (by decide)).1 (by decide)

end RestSwagger

namespace RestSwagger

/-- The split scan always returns at least one piece. -/
theorem splitOnAuxL_ne_nil (sep : List Char) (fuel : Nat) (cs acc : List Char) :
    splitOnAuxL sep fuel cs acc ≠ [] := by
  induction fuel generalizing cs acc with
  | zero => simp [splitOnAuxL]
  | succ n ih =>
    cases cs with
    | nil => simp [splitOnAuxL]
    | cons c cs' =>
      by_cases h : sep.isPrefixOf (c :: cs')
      · simp [splitOnAuxL, h]
      · rw [splitOnAuxL, if_neg h]
        exact ih _ _

/-- Python `split` always returns at least one piece. -/
theorem pySplit_ne_nil (s sep : String) : pySplit s sep ≠ [] := by
  intro h
  unfold pySplit at h
  exact splitOnAuxL_ne_nil _ _ _ _ (List.map_eq_nil_iff.mp h)

/-- C10: a method-level summary falls back to the class-level summary exactly
when the parsed method summary is absent; a docstring whose first trimmed line
is a parameter line yields the empty-string description and summary under the
Simple strategy, and `get_summary` then returns that empty string rather than
the class summary. -/
theorem c10_summary_fallback (d : String) (mi : MethodIntrospector)
    (h1 : d ≠ "")
    (h2 : containsStr (pyStrip (firstSplit (trimDocstring d) "\n")) "--" = true)
    (h3 : mi.doc.summary = (simpleParse (some d)).summary) :
    (simpleParse (some d)).description = some "" ∧
    (simpleParse (some d)).summary = some "" ∧
    miGetSummary mi = some "" ∧
    (∀ mj : MethodIntrospector, mj.doc.summary = none →
        miGetSummary mj = mj.classDoc.summary) := by
  obtain ⟨l0, rest, hs⟩ : ∃ l0 rest, pySplit (trimDocstring d) "\n" = l0 :: rest := by
    cases hsplit : pySplit (trimDocstring d) "\n" with
    | nil => exact absurd hsplit (pySplit_ne_nil _ _)
    | cons a l => exact ⟨a, l, rfl⟩
  rw [firstSplit, hs] at h2
  simp only [List.headD_cons] at h2
  have hdesc : stripParamsFromDocstring d = "" := by
    unfold stripParamsFromDocstring
    rw [hs]
    simp [firstMatchIdx, h2]
    decide
  have hparse : (simpleParse (some d)).description = some "" ∧
      (simpleParse (some d)).summary = some "" := by
    simp [simpleParse, h1, hdesc]
    decide
  refine ⟨hparse.1, hparse.2, ?_, ?_⟩
  · rw [hparse.2] at h3
    simp [miGetSummary, h3]
  · intro mj hmj
    simp [miGetSummary, hmj]

/-- C10 witness: the docstring "email -- e-mail address" consists solely of a
parameter line; the method summary is the empty string, not the class-level
"Class summary". -/
theorem c10_summary_fallback_witness :
    (simpleParse (some "email -- e-mail address")).description = some "" ∧
    (simpleParse (some "email -- e-mail address")).summary = some "" ∧
    miGetSummary c10wMi = some "" ∧
    (∀ mj : MethodIntrospector, mj.doc.summary = none →
        miGetSummary mj = mj.classDoc.summary) :=
  c10_summary_fallback "email -- e-mail address" c10wMi (by decide) (by decide) (by decide)

end RestSwagger

namespace RestSwagger

/-- The operation built for a method introspector carries its HTTP method. -/
theorem genMethodOperation_httpMethod (env : List SerializerSpec)
    (mi : MethodIntrospector) :
    (genMethodOperation env mi).httpMethod = mi.httpMethod := rfl

/-- One loop step never adds an OPTIONS operation. -/
theorem retrieveStep_no_options (env : List SerializerSpec)
    (acc : List Operation × ModelGenerator) (mi : MethodIntrospector)
    (h : "OPTIONS" ∉ acc.1.map Operation.httpMethod) :
    "OPTIONS" ∉ (retrieveStep env acc mi).1.map Operation.httpMethod := by
  unfold retrieveStep
  by_cases hm : mi.httpMethod = "OPTIONS"
  · simpa [hm] using h
  · simp only [hm, if_false, List.map_append, List.mem_append, List.map_cons,
      List.map_nil, List.mem_singleton, genMethodOperation_httpMethod]
    rintro (hin | hEq)
    · exact h hin
    · exact hm hEq.symm

/-- The whole loop never accumulates an OPTIONS operation. -/
theorem retrieveFold_no_options (env : List SerializerSpec)
    (mis : List MethodIntrospector) :
    ∀ acc, "OPTIONS" ∉ acc.1.map Operation.httpMethod →
      "OPTIONS" ∉ (mis.foldl (retrieveStep env) acc).1.map Operation.httpMethod := by
  induction mis with
  | nil => intro acc h; exact h
  | cons mi rest ih =>
    intro acc h
    exact ih _ (retrieveStep_no_options env acc mi h)

/-- C2: for a viewset endpoint whose action map is exactly get to list and
post to create, `_retrieve_api_info` emits exactly two operations with HTTP
methods GET and POST (the uppercased map keys); and no endpoint of either
kind ever emits an operation with HTTP method OPTIONS. -/
theorem c2_viewset_operations (env : List SerializerSpec) (fuel : Nat) (vd : ViewData)
    (path : String) (api : Api) (info : ApiInfo)
    (hok : retrieveApiInfo env fuel api = .ok info) :
    (∃ i, retrieveApiInfo env fuel
            ⟨path, .viewSet vd, some [("get", "list"), ("post", "create")]⟩ = .ok i
        ∧ i.operations.length = 2
        ∧ i.operations.map Operation.httpMethod = ["GET", "POST"]) ∧
    "OPTIONS" ∉ info.operations.map Operation.httpMethod := by
  constructor
  · exact ⟨_, rfl, rfl, rfl⟩
  · unfold retrieveApiInfo at hok
    cases hint : apiIntrospect api with
    | error e =>
      rw [hint] at hok
      exact absurd hok (by simp)
    | ok mis =>
      rw [hint] at hok
      simp only [Except.ok.injEq] at hok
      subst hok
      exact retrieveFold_no_options env mis ([], ModelGenerator.empty) (by simp)

/-- C2 witness: the theorem applied with the concrete viewset input and a
concrete APIView endpoint exposing GET and OPTIONS, whose introspection result
contains no OPTIONS operation. -/
theorem c2_viewset_operations_witness :
    (∃ i, retrieveApiInfo [] 0
            ⟨"/x/", .viewSet sampleViewData, some [("get", "list"), ("post", "create")]⟩ = .ok i
        ∧ i.operations.length = 2
        ∧ i.operations.map Operation.httpMethod = ["GET", "POST"]) ∧
    "OPTIONS" ∉ c2wInfo.operations.map Operation.httpMethod :=
  c2_viewset_operations [] 0 sampleViewData "/x/" c2wApi c2wInfo rfl

/-- The generator loop fails whenever the remaining endpoints contain a
viewset whose pattern callback lacks the `actions` closure. -/
theorem generateAux_error (env : List SerializerSpec) (fuel : Nat) (api : Api)
    (vd : ViewData) (hvs : api.callback = .viewSet vd)
    (hact : api.patternActions = none) :
    ∀ apis, api ∈ apis → ∀ docs models,
      ∃ msg, generateAux env fuel apis docs models = .error msg := by
  intro apis
  induction apis with
  | nil => intro hmem; cases hmem
  | cons a rest ih =>
    intro hmem docs models
    rcases List.mem_cons.mp hmem with rfl | hmem'
    · refine ⟨"Unable to use callback invalid closure/function specified.", ?_⟩
      simp [generateAux, retrieveApiInfo, apiIntrospect, hvs, viewSetIntrospect, hact]
    · cases hr : retrieveApiInfo env fuel a with
      | error e => exact ⟨e, by simp [generateAux, hr]⟩
      | ok info =>
        obtain ⟨msg, hm⟩ := ih hmem'
          (docs ++ [⟨formatter info.description, a.path, info.operations⟩])
          (if info.models.length > 0 then assocMerge models info.models else models)
        exact ⟨msg, by simpa [generateAux, hr] using hm⟩

/-- C6: a viewset endpoint whose route callback lacks the `actions` closure
makes `generate` fail as a whole: the `RuntimeError` raised by
`_resolve_methods` propagates to the caller of `generate`. -/
theorem c6_viewset_error_propagates (env : List SerializerSpec) (fuel : Nat)
    (apis : List Api) (api : Api) (vd : ViewData)
    (hmem : api ∈ apis) (hvs : api.callback = .viewSet vd)
    (hact : api.patternActions = none) :
    ∃ msg, generate env fuel apis = .error msg :=
  generateAux_error env fuel api vd hvs hact apis hmem [] []

/-- C6 witness: a one-endpoint API list whose viewset lacks the `actions`
closure. -/
theorem c6_viewset_error_propagates_witness :
    ∃ msg, generate [] 0 [c6wApi] = .error msg :=
  c6_viewset_error_propagates [] 0 [c6wApi] c6wApi sampleViewData
    (List.mem_singleton.mpr rfl) rfl rfl

end RestSwagger

namespace RestSwagger

/-- Setting the same key to the same value twice is the same as once. -/
theorem assocSet_idem (l : List (String × α)) (k : String) (v : α) :
    assocSet (assocSet l k v) k v = assocSet l k v := by
  induction l with
  | nil => simp [assocSet]
  | cons kv rest ih =>
    obtain ⟨a, b⟩ := kv
    by_cases h : a = k
    · simp [assocSet, h]
    · simp [assocSet, h, ih]

/-- `register` never touches the output map. -/
theorem register_models (env : List SerializerSpec) (st : ModelGenerator) (s : Nat) :
    (register env st s).models = st.models := by
  unfold register
  by_cases hm : (alookup st.models (getIdentifier env s)).isSome = true
  · simp [hm]
  · simp [hm]

/-- A run of registrations never touches the output map. -/
theorem foldl_register_models (env : List SerializerSpec) (l : List Nat)
    (st : ModelGenerator) : (l.foldl (register env) st).models = st.models := by
  induction l generalizing st with
  | nil => rfl
  | cons x xs ih => rw [List.foldl_cons, ih, register_models]

/-- Expanding the fields of one serializer never touches the output map. -/
theorem generateModelFields_models (env : List SerializerSpec)
    (fields : List (String × FieldInfo)) (st : ModelGenerator) :
    (generateModelFields env fields st).2.models = st.models := by
  induction fields generalizing st with
  | nil => rfl
  | cons nf rest ih =>
    obtain ⟨n, f⟩ := nf
    simp only [generateModelFields]
    rw [ih, foldl_register_models]

/-- A key is absent from an association list exactly when lookup fails. -/
theorem alookup_eq_none_iff (l : List (String × α)) (k : String) :
    alookup l k = none ↔ k ∉ l.map Prod.fst := by
  induction l with
  | nil => simp [alookup]
  | cons kv rest ih =>
    obtain ⟨a, b⟩ := kv
    by_cases h : a = k
    · simp [alookup, h]
    · simp only [alookup, h, if_false, List.map_cons, List.mem_cons]
      rw [ih]
      constructor
      · intro hn hor
        rcases hor with he | hm
        · exact h he.symm
        · exact hn hm
      · intro hn hm
        exact hn (Or.inr hm)

/-- A successful lookup survives appending entries on the right. -/
theorem alookup_append_some (l l' : List (String × α)) (k : String) (v : α)
    (h : alookup l k = some v) : alookup (l ++ l') k = some v := by
  induction l with
  | nil => simp [alookup] at h
  | cons kv rest ih =>
    obtain ⟨a, b⟩ := kv
    by_cases he : a = k
    · simp only [alookup, he, if_true] at h
      simp [alookup, he, h]
    · simp only [alookup, he, if_false] at h
      simp only [List.cons_append, alookup, he, if_false]
      exact ih h

/-- Appending a fresh key keeps the key list duplicate-free. -/
theorem nodup_keys_append (l : List (String × α)) (k : String) (v : α)
    (h : (l.map Prod.fst).Nodup) (hk : alookup l k = none) :
    ((l ++ [(k, v)]).map Prod.fst).Nodup := by
  rw [List.map_append, List.map_cons, List.map_nil]
  rw [List.nodup_append]
  exact ⟨h, List.nodup_singleton k,
    by simpa [List.disjoint_singleton] using (alookup_eq_none_iff l k).mp hk⟩

/-- The worklist drain keeps the output map's keys duplicate-free. -/
theorem genLoop_nodup (env : List SerializerSpec) (fuel : Nat) :
    ∀ st : ModelGenerator, ((st.models.map Prod.fst).Nodup) →
      (((genLoop env fuel st).models.map Prod.fst).Nodup) := by
  induction fuel with
  | zero => intro st h; exact h
  | succ n ih =>
    intro st h
    obtain ⟨sers, mods⟩ := st
    cases sers with
    | nil => simpa [genLoop] using h
    | cons p rest =>
      obtain ⟨id, s⟩ := p
      by_cases hm : (alookup mods id).isSome = true
      · simp only [genLoop, hm, if_true]
        exact ih _ h
      · simp only [genLoop, hm, if_false]
        apply ih
        have hmods : (generateModelFields env (getSpec env s).fields
            ⟨rest, mods⟩).2.models = mods :=
          generateModelFields_models env _ _
        simp only [hmods]
        exact nodup_keys_append _ _ _ h (Option.not_isSome_iff_eq_none.mp hm)

/-- An entry of the output map is never overwritten by the worklist drain: a
type whose id is already present is never re-expanded. -/
theorem genLoop_preserve (env : List SerializerSpec) (fuel : Nat) :
    ∀ (st : ModelGenerator) (k : String) (v : SchemaDoc),
      alookup st.models k = some v →
      alookup (genLoop env fuel st).models k = some v := by
  induction fuel with
  | zero => intro st k v h; exact h
  | succ n ih =>
    intro st k v h
    obtain ⟨sers, mods⟩ := st
    cases sers with
    | nil => simpa [genLoop] using h
    | cons p rest =>
      obtain ⟨id, s⟩ := p
      by_cases hm : (alookup mods id).isSome = true
      · simp only [genLoop, hm, if_true]
        exact ih _ _ _ h
      · simp only [genLoop, hm, if_false]
        apply ih
        have hmods : (generateModelFields env (getSpec env s).fields
            ⟨rest, mods⟩).2.models = mods :=
          generateModelFields_models env _ _
        simp only [hmods]
        exact alookup_append_some _ _ _ _ h

/-- C1: registering the same type twice is idempotent; a type whose id is in
the output map is ignored by `register`; for any registration state whose
output map has duplicate-free ids (in particular any state reached by
registrations alone, whose output map is empty), the map returned by
`generate` holds at most one schema document per id, and an id already present
is never re-expanded — regardless of cycles in the serializer environment. -/
theorem c1_model_registry (env : List SerializerSpec) (st : ModelGenerator) (s : Nat)
    (fuel : Nat) (h : ((st.models.map Prod.fst).Nodup)) :
    register env (register env st s) s = register env st s
  ∧ ((alookup st.models (getIdentifier env s)).isSome → register env st s = st)
  ∧ (((genLoop env fuel st).models.map Prod.fst).Nodup)
  ∧ (∀ id doc, alookup st.models id = some doc →
      alookup (genLoop env fuel st).models id = some doc) := by
  refine ⟨?_, ?_, genLoop_nodup env fuel st h, fun id doc => genLoop_preserve env fuel st id doc⟩
  · unfold register
    by_cases hm : (alookup st.models (getIdentifier env s)).isSome = true
    · simp [hm]
    · simp [hm, assocSet_idem]
  · intro hm
    unfold register
    simp [hm]

/-- C1 witness: the cyclic environment A embeds B embeds A; registering A
twice equals registering it once, and draining the worklist terminates with
exactly the two schema ids A and B, each once. -/
theorem c1_model_registry_witness :
    (register cyclicEnv (register cyclicEnv ModelGenerator.empty 0) 0 =
        register cyclicEnv ModelGenerator.empty 0)
  ∧ (((genLoop cyclicEnv 10 (register cyclicEnv ModelGenerator.empty 0)).models.map
        Prod.fst).Nodup)
  ∧ ((genLoop cyclicEnv 10 (register cyclicEnv ModelGenerator.empty 0)).models.map
        Prod.fst = ["A", "B"])
  ∧ ((genLoop cyclicEnv 10 (register cyclicEnv ModelGenerator.empty 0)).serializers = []) :=
  ⟨(c1_model_registry cyclicEnv (register cyclicEnv ModelGenerator.empty 0) 0 10
      (by decide)).1,
   (c1_model_registry cyclicEnv (register cyclicEnv ModelGenerator.empty 0) 0 10
      (by decide)).2.2.1,
   by decide, by decide⟩

end RestSwagger

namespace RestSwagger

/-- A found first-match index: everything before it fails the predicate and
the element at the index satisfies it. -/
theorem firstMatchIdx_some_spec (p : String → Bool) (l : List String) (i : Nat)
    (h : firstMatchIdx p l = some i) :
    (∀ x ∈ l.take i, p x = false) ∧ ∃ x xs, l.drop i = x :: xs ∧ p x = true := by
  induction l generalizing i with
  | nil => simp [firstMatchIdx] at h
  | cons a rest ih =>
    cases hp : p a with
    | true =>
      simp [firstMatchIdx, hp] at h
      subst h
      exact ⟨by simp, a, rest, by simp, hp⟩
    | false =>
      simp [firstMatchIdx, hp] at h
      obtain ⟨j, hj, rfl⟩ := h
      obtain ⟨htake, x, xs, hdrop, hx⟩ := ih j hj
      refine ⟨?_, x, xs, by simpa using hdrop, hx⟩
      intro y hy
      rw [List.take_succ_cons] at hy
      rcases List.mem_cons.mp hy with rfl | hy
      · exact hp
      · exact htake y hy

/-- A failed first-match search: every element fails the predicate. -/
theorem firstMatchIdx_none_spec (p : String → Bool) (l : List String)
    (h : firstMatchIdx p l = none) : ∀ x ∈ l, p x = false := by
  induction l with
  | nil => simp
  | cons a rest ih =>
    cases hp : p a with
    | true => simp [firstMatchIdx, hp] at h
    | false =>
      simp [firstMatchIdx, hp] at h
      intro x hx
      rcases List.mem_cons.mp hx with rfl | hx
      · exact hp
      · exact ih h x hx

/-- C8 (amended): the Simple-strategy description is the trimmed text
truncated before the first line containing "--" anywhere in it (everything
earlier is free of "--", the cut line itself contains it); when no line
contains "--" the whole trimmed text is kept; and the collected query
parameters are exactly the lines of the raw text splitting on " -- " into two
parts, in document order. -/
theorem c8_description_and_query (d : String) (h1 : d ≠ "") :
    (∀ i, firstMatchIdx (fun l => containsStr (pyStrip l) "--")
            (pySplit (trimDocstring d) "\n") = some i →
        (simpleParse (some d)).description =
            some (pyStrip (pyJoin "\n" ((pySplit (trimDocstring d) "\n").take i)))
        ∧ (∀ x ∈ (pySplit (trimDocstring d) "\n").take i,
              containsStr (pyStrip x) "--" = false)
        ∧ ∃ x xs, (pySplit (trimDocstring d) "\n").drop i = x :: xs
            ∧ containsStr (pyStrip x) "--" = true)
  ∧ (firstMatchIdx (fun l => containsStr (pyStrip l) "--")
        (pySplit (trimDocstring d) "\n") = none →
        (simpleParse (some d)).description =
            some (pyStrip (pyJoin "\n" (pySplit (trimDocstring d) "\n")))
        ∧ ∀ x ∈ pySplit (trimDocstring d) "\n", containsStr (pyStrip x) "--" = false)
  ∧ ((simpleParse (some d)).query = some (extractQueryParams d))
  ∧ (∀ p, p ∈ extractQueryParams d ↔
        ∃ line ∈ pySplit d "\n", ∃ a b, pySplit line " -- " = [a, b]
            ∧ p = mkQueryParam a b) := by
  refine ⟨?_, ?_, by simp [simpleParse, h1], ?_⟩
  · intro i hi
    have hspec := firstMatchIdx_some_spec _ _ _ hi
    refine ⟨?_, hspec.1, hspec.2⟩
    simp [simpleParse, h1, stripParamsFromDocstring, hi]
  · intro hn
    refine ⟨?_, firstMatchIdx_none_spec _ _ hn⟩
    simp [simpleParse, h1, stripParamsFromDocstring, hn]
  · intro p
    unfold extractQueryParams
    rw [List.mem_filterMap]
    constructor
    · rintro ⟨line, hline, hf⟩
      refine ⟨line, hline, ?_⟩
      cases hsp : pySplit line " -- " with
      | nil => rw [hsp] at hf; simp at hf
      | cons a rest =>
        cases rest with
        | nil => rw [hsp] at hf; simp at hf
        | cons b rest2 =>
          cases rest2 with
          | nil =>
            rw [hsp] at hf
            simp only [Option.some.injEq] at hf
            exact ⟨a, b, rfl, hf.symm⟩
          | cons c r3 => rw [hsp] at hf; simp at hf
    · rintro ⟨line, hline, a, b, hsp, rfl⟩
      exact ⟨line, hline, by rw [hsp]⟩

/-- C8 witness: the amended description/query characterization applied at the
counterexample docstring, whose first "--" line has index 1. -/
theorem c8_description_and_query_witness :
    (simpleParse (some "hello\nfoo--bar\nx -- y")).description =
        some (pyStrip (pyJoin "\n"
          ((pySplit (trimDocstring "hello\nfoo--bar\nx -- y") "\n").take 1))) ∧
    (simpleParse (some "hello\nfoo--bar\nx -- y")).query =
        some (extractQueryParams "hello\nfoo--bar\nx -- y") :=
  ⟨((c8_description_and_query "hello\nfoo--bar\nx -- y" (by decide)).1 1 (by decide)).1,
   (c8_description_and_query "hello\nfoo--bar\nx -- y" (by decide)).2.2.1⟩

end RestSwagger

namespace RestSwagger

/-- When the current line is indented strictly deeper than both the open list
and the open item, indent bookkeeping only touches the indent stack. -/
theorem rstIndentBookkeep_parts (st : RstState) (cur : Nat)
    (hb1 : ¬ st.itemListIndent.getD 0 ≥ cur)
    (hb2 : ¬ st.itemListItemIndent.getD 0 ≥ cur) :
    (rstIndentBookkeep st cur).description = st.description ∧
    (rstIndentBookkeep st cur).serializer = st.serializer ∧
    (rstIndentBookkeep st cur).deserializer = st.deserializer ∧
    (rstIndentBookkeep st cur).query = st.query ∧
    (rstIndentBookkeep st cur).post = st.post ∧
    (rstIndentBookkeep st cur).collectDesc = st.collectDesc ∧
    (rstIndentBookkeep st cur).ignoreIndent = st.ignoreIndent ∧
    (rstIndentBookkeep st cur).activeList = st.activeList ∧
    (rstIndentBookkeep st cur).itemListIndent = st.itemListIndent ∧
    (rstIndentBookkeep st cur).itemListItemIndent = st.itemListItemIndent := by
  unfold rstIndentBookkeep
  simp [hb1, hb2]

/-- Under the same conditions the bookkeeping leaves the active list, the
current item alias, and the collected item description untouched. -/
theorem rstIndentBookkeep_itemDesc (st : RstState) (cur : Nat)
    (hb1 : ¬ st.itemListIndent.getD 0 ≥ cur)
    (hb2 : ¬ st.itemListItemIndent.getD 0 ≥ cur) :
    (rstIndentBookkeep st cur).getActive = st.getActive ∧
    (rstIndentBookkeep st cur).itemDesc = st.itemDesc := by
  obtain ⟨-, -, -, hq, hp, -, -, ha, -, -⟩ := rstIndentBookkeep_parts st cur hb1 hb2
  have hactive : (rstIndentBookkeep st cur).getActive = st.getActive := by
    unfold RstState.getActive
    rw [ha, hq, hp]
  exact ⟨hactive, by unfold RstState.itemDesc; rw [hactive]⟩

/-- C9: inside an open list item of the structured parser, a line of the form
`:required:`, `:enum: a,b,c`, `:minimum: N` or `:maximum: N` sets the
corresponding structured attribute exactly when no description text has been
collected for the item yet, and is otherwise appended as free description
text; and blank lines are preserved as empty strings in whatever is currently
collected (item description, top-level description, or nothing once
description collection stopped). -/
theorem c9_item_option_lines (st : RstState) (line : String) (li ii : Nat)
    (h1 : st.itemListIndent = some li)
    (h2 : st.itemListItemIndent = some ii)
    (hstrip : pyStrip line ≠ "")
    (hli : li < line.length - (pyLStrip line).length)
    (hii : ii < line.length - (pyLStrip line).length)
    (hig : (match st.ignoreIndent with
            | some n => decide (line.length - (pyLStrip line).length > n)
            | none => false) = false) :
    (∀ (t : RstState) (bl : String), pyStrip bl = "" →
        ((t.itemListIndent.isSome && t.itemListItemIndent.isSome) = true →
            rstStep t bl = t.modifyItem fun it =>
              { it with description := it.description ++ [""] })
      ∧ ((t.itemListIndent.isSome && t.itemListItemIndent.isSome) = false →
            t.collectDesc = true →
            rstStep t bl = { t with description := t.description ++ [""] })
      ∧ ((t.itemListIndent.isSome && t.itemListItemIndent.isSome) = false →
            t.collectDesc = false → rstStep t bl = t))
  ∧ (st.itemDesc = [] →
        (∀ v, parseVariable (pyStrip line) = (some "required", v) →
            rstStep st line = (rstIndentBookkeep st
                (line.length - (pyLStrip line).length)).modifyItem fun it =>
              { it with required := some true })
      ∧ (∀ v, parseVariable (pyStrip line) = (some "enum", some v) →
            rstStep st line = (rstIndentBookkeep st
                (line.length - (pyLStrip line).length)).modifyItem fun it =>
              { it with enum := some ((pySplit v ",").map pyStrip) })
      ∧ (∀ v, pyIsDigit v = true →
            parseVariable (pyStrip line) = (some "minimum", some v) →
            rstStep st line = (rstIndentBookkeep st
                (line.length - (pyLStrip line).length)).modifyItem fun it =>
              { it with minimum := some (pyToNat v) })
      ∧ (∀ v, pyIsDigit v = true →
            parseVariable (pyStrip line) = (some "maximum", some v) →
            rstStep st line = (rstIndentBookkeep st
                (line.length - (pyLStrip line).length)).modifyItem fun it =>
              { it with maximum := some (pyToNat v) }))
  ∧ (st.itemDesc ≠ [] → isTruthyName (parseVariable (pyStrip line)).1 = true →
        rstStep st line = (rstIndentBookkeep st
            (line.length - (pyLStrip line).length)).modifyItem fun it =>
          { it with description := it.description ++ [pyStrip line] }) := by
  have hb1 : ¬ st.itemListIndent.getD 0 ≥ (line.length - (pyLStrip line).length) := by
    rw [h1]
    simp only [Option.getD_some]
    omega
  have hb2 : ¬ st.itemListItemIndent.getD 0 ≥ (line.length - (pyLStrip line).length) := by
    rw [h2]
    simp only [Option.getD_some]
    omega
  obtain ⟨-, -, -, -, -, -, hpi, -, hpl, hpit⟩ :=
    rstIndentBookkeep_parts st (line.length - (pyLStrip line).length) hb1 hb2
  obtain ⟨-, hdesc⟩ :=
    rstIndentBookkeep_itemDesc st (line.length - (pyLStrip line).length) hb1 hb2
  refine ⟨?_, ?_, ?_⟩
  · intro t bl hbl
    refine ⟨?_, ?_, ?_⟩
    · intro hc
      simp [rstStep, hbl, hc]
    · intro hc hcd
      simp [rstStep, hbl, hc, hcd]
    · intro hc hcd
      simp [rstStep, hbl, hc, hcd]
  · intro hempty
    refine ⟨?_, ?_, ?_, ?_⟩
    · intro v hv
      cases v with
      | none =>
        simp [rstStep, hstrip, hpi, hig, hpl, h1, hpit, h2, hdesc, hempty, hv,
          isTruthyName]
      | some w =>
        simp [rstStep, hstrip, hpi, hig, hpl, h1, hpit, h2, hdesc, hempty, hv,
          isTruthyName]
    · intro v hv
      simp [rstStep, hstrip, hpi, hig, hpl, h1, hpit, h2, hdesc, hempty, hv,
        isTruthyName]
    · intro v hdig hv
      simp [rstStep, hstrip, hpi, hig, hpl, h1, hpit, h2, hdesc, hempty, hv,
        isTruthyName, hdig]
    · intro v hdig hv
      simp [rstStep, hstrip, hpi, hig, hpl, h1, hpit, h2, hdesc, hempty, hv,
        isTruthyName, hdig]
  · intro hne htruthy
    simp [rstStep, hstrip, hpi, hig, hpl, h1, hpit, h2, hdesc, hne, htruthy]

end RestSwagger

namespace RestSwagger

/-- C9 witness: in a state with an open `query` item having no description
yet, the line "      :required:" (indent 6, inside the item opened at indent
4) sets the `required` attribute on the current item. -/
theorem c9_item_option_lines_witness :
    rstStep c9wState "      :required:" =
      (rstIndentBookkeep c9wState 6).modifyItem fun it =>
        { it with required := some true } :=
  ((c9_item_option_lines c9wState "      :required:" 2 4 rfl rfl (by decide) (by decide)
      (by decide) (by decide)).2.1 (by decide)).1 none (by decide)

end RestSwagger

/- Sanity check: the successful relative-import cases of
`IntrospectorHelperTest`. -/
example :
    RestSwagger.importFromString
      [("rest_framework_swagger.tests", ["CommentSerializer"])]
      "..rest_framework_swagger.tests.CommentSerializer"
      (some "rest_framework_swagger.tests") =
      .ok (some ("rest_framework_swagger.tests", "CommentSerializer")) := rfl

example :
    RestSwagger.importFromString
      [("rest_framework_swagger.tests", ["CommentSerializer"])]
      ".tests.CommentSerializer" (some "rest_framework_swagger.tests") =
      .ok (some ("rest_framework_swagger.tests", "CommentSerializer")) := rfl

example :
    RestSwagger.importFromString
      [("rest_framework_swagger.tests", ["CommentSerializer"])]
      "CommentSerializer" (some "rest_framework_swagger.tests") =
      .ok (some ("rest_framework_swagger.tests", "CommentSerializer")) := rfl
